import Mathlib

/-!
Shallow embedding of the client-side flight-filtering/sorting/pagination
engine and the seat-map normalization engine of the flight-search app.

Sources embedded:
  * `src/hooks/useFlightFilters.ts` — stop/price/airline/duration filtering,
    stable sort, price statistics, price histogram, `hasActiveFilters`.
  * `src/components/results/FlightList.tsx` — table filters, pagination
    state, lowest-price flag.
  * `src/hooks/useSeatmap.ts` — seat-number parsing, seat processing,
    cabin grouping.

Modelling conventions:
  * Decimal price strings (`price.grandTotal`, parsed by `parseFloat`) are
    modelled as exact rationals `ℚ`; `Math.floor`/`Math.ceil`/`Math.round`
    become `Int.floor`/`Int.ceil`/round-half-up on `ℚ`.
  * The JavaScript `Infinity` upper bound of a price range is `Option ℚ`
    with `none` standing for `Infinity`.
  * `Array.prototype.sort` (ES2019+: stable) is modelled by the verified
    stable `List.mergeSort`, with `le a b` mirroring `cmp a b ≤ 0` of the
    numeric comparator.
  * Departure timestamps (`new Date(x).getTime()`) are modelled as `Int`
    epoch values carried directly on the segment.
  * JavaScript optional chaining / `|| default` is modelled with `Option`.
-/

namespace FlightApp

/-- One physical flight, `src/types/flight.types.ts` `FlightSegment`
restricted to the fields the engines read: `numberOfStops`, the departure
timestamp (`departure.at`, modelled as epoch `Int`), and the endpoint IATA
codes used by the table search filter. -/
structure FlightSegment where
  numberOfStops : Nat
  departureAt : Int
  departureIata : String
  arrivalIata : String
deriving DecidableEq, Repr

/-- One direction of travel: ISO-8601 duration string plus segments. -/
structure FlightItinerary where
  duration : String
  segments : List FlightSegment
deriving DecidableEq, Repr

/-- Offer price; `grandTotal` is the decimal string modelled as `ℚ`. -/
structure FlightPrice where
  grandTotal : ℚ
  currency : String
deriving DecidableEq, Repr

/-- One priced flight offer, restricted to the fields the engines read. -/
structure FlightOffer where
  id : String
  itineraries : List FlightItinerary
  price : FlightPrice
  validatingAirlineCodes : List String
deriving DecidableEq, Repr

/-- `StopFilter = 'non-stop' | '1-stop' | '2+-stops'`. -/
inductive StopFilter where
  | nonStop
  | oneStop
  | twoPlusStops
deriving DecidableEq, Repr

/-- `PriceRange`; `max = none` models the JavaScript `Infinity` default. -/
structure PriceRange where
  min : ℚ
  max : Option ℚ
deriving DecidableEq, Repr

/-- `FlightFilters` restricted to the fields the filter pipeline reads
(the departure/arrival time-range fields of the source type are never read
by `filteredFlights` nor `hasActiveFilters` and are omitted). -/
structure FlightFilters where
  stops : List StopFilter
  priceRange : PriceRange
  airlines : List String
  duration : Option Nat
deriving DecidableEq, Repr

/-- `SortOption`. -/
inductive SortOption where
  | priceAsc
  | priceDesc
  | durationAsc
  | departureAsc
deriving DecidableEq, Repr

/-- `defaultFilters` from `useFlightFilters.ts` (stops `[]`, price range
`{min: 0, max: Infinity}`, airlines `[]`, duration `null`). -/
def defaultFilters : FlightFilters :=
  { stops := []
    priceRange := { min := 0, max := none }
    airlines := []
    duration := none }

/-- `getFlightStops`: sum over all itineraries of (sum of each segment's
`numberOfStops`) plus `Math.max(0, segments.length - 1)` connections
(`Nat` subtraction is truncated, matching `Math.max 0`). -/
def getFlightStops (flight : FlightOffer) : Nat :=
  flight.itineraries.foldl
    (fun total itinerary =>
      let segmentStops :=
        itinerary.segments.foldl (fun sum segment => sum + segment.numberOfStops) 0
      let connections := itinerary.segments.length - 1
      total + segmentStops + connections)
    0

/-- `getFlightPrice`: `parseFloat(flight.price.grandTotal)`. -/
def getFlightPrice (flight : FlightOffer) : ℚ :=
  flight.price.grandTotal

/-- Digit run to number, base 10 (`parseInt(s, 10)` on an all-digit run). -/
def digitsToNat (cs : List Char) : Nat :=
  cs.foldl (fun acc c => 10 * acc + (c.toNat - 48)) 0

/-- Locate the first occurrence of the literal `PT` in a character list and
return the characters after it, mirroring where the unanchored regex
`PT(?:(\d+)H)?(?:(\d+)M)?` first matches. -/
def afterPT : List Char → Option (List Char)
  | [] => none
  | 'P' :: 'T' :: rest => some rest
  | _ :: rest => afterPT rest

/-- One optional regex group `(?:(\d+)X)?` at the current position: if a
non-empty maximal digit run is immediately followed by the marker `X`,
return its value and the remainder after the marker; otherwise match the
empty string (value 0, position unchanged). -/
def matchNumGroup (marker : Char) (cs : List Char) : Nat × List Char :=
  let digits := cs.takeWhile Char.isDigit
  let rest := cs.dropWhile Char.isDigit
  match digits, rest with
  | _ :: _, c :: rest' =>
    if c = marker then (digitsToNat digits, rest') else (0, cs)
  | _, _ => (0, cs)

/-- `getFlightDuration`: take `itineraries[0]?.duration || 'PT0H0M'`
(the `||` also replaces an empty string, which is falsy), match
`PT(?:(\d+)H)?(?:(\d+)M)?`, and return `hours * 60 + minutes`; a string
with no `PT` yields no match, hence 0 (both groups default to `'0'`). -/
def getFlightDuration (flight : FlightOffer) : Nat :=
  let duration :=
    match flight.itineraries.head? with
    | some itinerary => if itinerary.duration = "" then "PT0H0M" else itinerary.duration
    | none => "PT0H0M"
  match afterPT duration.toList with
  | none => 0
  | some rest =>
    let (hours, rest') := matchNumGroup 'H' rest
    let (minutes, _) := matchNumGroup 'M' rest'
    hours * 60 + minutes

/-- `getDepartureTime(...).getTime()`: the epoch value of
`itineraries[0]?.segments[0]?.departure.at` (an offer with no itinerary or
no segment would produce an invalid date whose `getTime()` is `NaN`;
per the data-model invariant such offers do not occur, and we default
to 0). -/
def getDepartureTime (flight : FlightOffer) : Int :=
  match flight.itineraries.head? with
  | some itinerary =>
    match itinerary.segments.head? with
    | some segment => segment.departureAt
    | none => 0
  | none => 0

/-- `globalPriceRange`: `{min: 0, max: 1000}` for an empty list, otherwise
`{min: Math.floor(min prices), max: Math.ceil(max prices)}` (both bounds
finite, returned here as a pair of rationals). -/
def globalPriceRange (flights : List FlightOffer) : ℚ × ℚ :=
  match flights with
  | [] => (0, 1000)
  | f :: fs =>
    let low := fs.foldl (fun m g => min m (getFlightPrice g)) (getFlightPrice f)
    let high := fs.foldl (fun m g => max m (getFlightPrice g)) (getFlightPrice f)
    ((⌊low⌋ : ℤ), (⌈high⌉ : ℤ))

/-- The per-bucket predicate of the stop filter
(`'non-stop' ⇒ stops === 0`, `'1-stop' ⇒ stops === 1`,
`'2+-stops' ⇒ stops >= 2`). -/
def stopMatches (filter : StopFilter) (stops : Nat) : Bool :=
  match filter with
  | .nonStop => stops == 0
  | .oneStop => stops == 1
  | .twoPlusStops => stops ≥ 2

/-- The comparator key order for `result.sort`: `le a b` iff the numeric
comparator returns `≤ 0` on `(a, b)`. -/
def sortLe (sortOption : SortOption) (a b : FlightOffer) : Bool :=
  match sortOption with
  | .priceAsc => getFlightPrice a ≤ getFlightPrice b
  | .priceDesc => getFlightPrice b ≤ getFlightPrice a
  | .durationAsc => getFlightDuration a ≤ getFlightDuration b
  | .departureAsc => getDepartureTime a ≤ getDepartureTime b

/-- The stop-filtering stage of `filteredFlights`: when `filters.stops` is
non-empty, keep a flight iff some selected bucket matches its stop count. -/
def filterByStops (stops : List StopFilter) (flights : List FlightOffer) :
    List FlightOffer :=
  if stops.isEmpty then flights
  else flights.filter (fun flight =>
    stops.any (fun filter => stopMatches filter (getFlightStops flight)))

/-- The price-filtering stage: active iff `min > 0 || max < Infinity`;
the effective lower bound is `filters.priceRange.min || global.min`
(`0` is falsy, so a zero minimum falls back to the global minimum) and the
effective upper bound is `max === Infinity ? global.max : max`. -/
def filterByPrice (priceRange : PriceRange) (global : ℚ × ℚ)
    (flights : List FlightOffer) : List FlightOffer :=
  if priceRange.min > 0 ∨ priceRange.max ≠ none then
    let minPrice := if priceRange.min = 0 then global.1 else priceRange.min
    let maxPrice := match priceRange.max with
      | some m => m
      | none => global.2
    flights.filter (fun flight =>
      minPrice ≤ getFlightPrice flight ∧ getFlightPrice flight ≤ maxPrice)
  else flights

/-- The airline-filtering stage: when non-empty, keep a flight iff some of
its validating airline codes is selected. -/
def filterByAirlines (airlines : List String) (flights : List FlightOffer) :
    List FlightOffer :=
  if airlines.isEmpty then flights
  else flights.filter (fun flight =>
    flight.validatingAirlineCodes.any (fun code => airlines.contains code))

/-- The duration-filtering stage: when a ceiling is set, keep a flight iff
its primary itinerary's parsed duration is `≤` the ceiling. -/
def filterByDuration (duration : Option Nat) (flights : List FlightOffer) :
    List FlightOffer :=
  match duration with
  | none => flights
  | some ceiling => flights.filter (fun flight => getFlightDuration flight ≤ ceiling)

/-- The sorting stage of `filteredFlights`: `result.sort(comparator)`,
stable per ES2019, modelled by the verified stable merge sort. -/
def sortFlights (sortOption : SortOption) (flights : List FlightOffer) :
    List FlightOffer :=
  flights.mergeSort (fun a b => sortLe sortOption a b)

/-- `filteredFlights` from `useFlightFilters.ts`: stop, price, airline and
duration filtering in order, then a stable sort by the selected key. -/
def filteredFlights (flights : List FlightOffer) (filters : FlightFilters)
    (sortOption : SortOption) : List FlightOffer :=
  let result := filterByStops filters.stops flights
  let result := filterByPrice filters.priceRange (globalPriceRange flights) result
  let result := filterByAirlines filters.airlines result
  let result := filterByDuration filters.duration result
  sortFlights sortOption result

/-- `hasActiveFilters`: stops non-empty, or airlines non-empty, or
`priceRange.min > global.min`, or `priceRange.max < global.max`
(an `Infinity` max is never `<` the finite global max), or a duration
ceiling is set. -/
def hasActiveFilters (flights : List FlightOffer) (filters : FlightFilters) : Bool :=
  let global := globalPriceRange flights
  !filters.stops.isEmpty ||
  !filters.airlines.isEmpty ||
  filters.priceRange.min > global.1 ||
  (match filters.priceRange.max with
   | some m => m < global.2
   | none => false) ||
  filters.duration.isSome

/-- `priceStats` over the filtered list: `{min, max, average}` of the
parsed prices, `{0, 0, 0}` for an empty list. -/
def priceStats (filtered : List FlightOffer) : ℚ × ℚ × ℚ :=
  match filtered with
  | [] => (0, 0, 0)
  | f :: fs =>
    let prices := (f :: fs).map getFlightPrice
    let low := fs.foldl (fun m g => min m (getFlightPrice g)) (getFlightPrice f)
    let high := fs.foldl (fun m g => max m (getFlightPrice g)) (getFlightPrice f)
    (low, high, prices.sum / prices.length)

/-- `Math.round`: round half toward positive infinity. -/
def jsRound (q : ℚ) : ℤ := ⌊q + 1/2⌋

/-- One histogram entry (`PriceGraphDataPoint`): `date` is the bucket's
lower-bound label, `price` is the bucket's count, `label` the range label. -/
structure PriceGraphDataPoint where
  date : String
  price : Nat
  label : String
deriving DecidableEq, Repr

/-- Increment the count of the bucket at index `i` (the mutation
`buckets[bucketIndex].price++`). -/
def incAt : List PriceGraphDataPoint → Nat → List PriceGraphDataPoint
  | [], _ => []
  | b :: bs, 0 => { b with price := b.price + 1 } :: bs
  | b :: bs, i + 1 => b :: incAt bs i

/-- `bucketIndex` of one flight's price:
`Math.min(Math.floor((price - min) / priceStep), bucketCount - 1)`. -/
def bucketIndexOf (minP step : ℚ) (bucketCount : Nat) (price : ℚ) : ℤ :=
  min ⌊(price - minP) / step⌋ ((bucketCount : ℤ) - 1)

/-- The `buckets` array of `priceGraphData` before the counting loop: one
zero-count labelled entry per bucket. -/
def initialBuckets (minP step : ℚ) (bucketCount : Nat) :
    List PriceGraphDataPoint :=
  (List.range bucketCount).map (fun (i : Nat) =>
    { date := "$" ++ toString (jsRound (minP + (i : ℚ) * step))
      price := 0
      label := "$" ++ toString (jsRound (minP + (i : ℚ) * step)) ++ " - $" ++
        toString (jsRound (minP + ((i : ℚ) + 1) * step)) })

/-- The `forEach` loop of `priceGraphData`: each flight increments the
count of its bucket when the index is in range. -/
def fillBuckets (minP step : ℚ) (bucketCount : Nat) (flights : List FlightOffer)
    (buckets : List PriceGraphDataPoint) : List PriceGraphDataPoint :=
  flights.foldl
    (fun bs flight =>
      let bucketIndex := bucketIndexOf minP step bucketCount (getFlightPrice flight)
      if 0 ≤ bucketIndex ∧ bucketIndex < (bs.length : ℤ) then
        incAt bs bucketIndex.toNat
      else bs)
    buckets

/-- `priceGraphData`: empty for an empty filtered list; otherwise at most
`min 10 n` equal-width buckets over `[priceStats.min, priceStats.max]`
with width `(max − min) / bucketCount || 1` (zero width — the single-price
case — falls back to 1), each flight incrementing the bucket
`min(⌊(price − min)/step⌋, bucketCount − 1)` when that index is in range. -/
def priceGraphData (filtered : List FlightOffer) : List PriceGraphDataPoint :=
  if filtered.length = 0 then []
  else
    let stats := priceStats filtered
    let minP := stats.1
    let maxP := stats.2.1
    let bucketCount := Nat.min 10 filtered.length
    let step : ℚ :=
      if (maxP - minP) / (bucketCount : ℚ) = 0 then 1
      else (maxP - minP) / (bucketCount : ℚ)
    fillBuckets minP step bucketCount filtered
      (initialBuckets minP step bucketCount)

/-! ## `src/components/results/FlightList.tsx` — table filters, pagination -/

/-- Lowercase a string character-wise (`String.prototype.toLowerCase` on
the ASCII data these fields carry). -/
def toLowerStr (s : String) : String :=
  String.mk (s.toList.map Char.toLower)

/-- Does `haystack` start with `needle`? -/
def startsWithChars : List Char → List Char → Bool
  | _, [] => true
  | [], _ :: _ => false
  | h :: hs, n :: ns => h = n && startsWithChars hs ns

/-- Does `needle` occur contiguously inside `haystack`? -/
def hasInfixChars : List Char → List Char → Bool
  | [], needle => needle.isEmpty
  | h :: t, needle => startsWithChars (h :: t) needle || hasInfixChars t needle

/-- `haystack.includes(needle)`: substring containment. -/
def containsSub (haystack needle : String) : Bool :=
  hasInfixChars haystack.toList needle.toList

/-- `getStopCount` from `src/utils/formatters.ts`: sum of the segments'
own stops plus `Math.max(0, segments.length - 1)` connections. -/
def getStopCount (segments : List FlightSegment) : Nat :=
  segments.foldl (fun sum segment => sum + segment.numberOfStops) 0 +
    (segments.length - 1)

/-- `TableFilters` state of `FlightList`. -/
structure TableFilters where
  search : String
  maxPrice : Option ℚ
  maxStops : Option Nat
  airlines : List String
deriving DecidableEq, Repr

/-- The free-text search predicate of the table filter: the lowercased
query must be a substring of the primary airline code, its carrier-
dictionary name (`carriers` is the code → name association list), the
first segment's origin code, or the last segment's destination code. -/
def matchesSearch (carriers : List (String × String)) (search : String)
    (flight : FlightOffer) : Bool :=
  let searchLower := toLowerStr search
  let airlineName :=
    match flight.validatingAirlineCodes.head? with
    | some code => (carriers.lookup code).getD ""
    | none => ""
  let origin :=
    match flight.itineraries.head? with
    | some itinerary =>
      match itinerary.segments.head? with
      | some segment => segment.departureIata
      | none => ""
    | none => ""
  let destination :=
    match flight.itineraries.head? with
    | some itinerary =>
      match itinerary.segments.getLast? with
      | some segment => segment.arrivalIata
      | none => ""
    | none => ""
  (match flight.validatingAirlineCodes.head? with
   | some code => containsSub (toLowerStr code) searchLower
   | none => false) ||
  containsSub (toLowerStr airlineName) searchLower ||
  containsSub (toLowerStr origin) searchLower ||
  containsSub (toLowerStr destination) searchLower

/-- The table-filter predicate of `FlightList` (`filteredFlights` there):
search (skipped when the query is the falsy empty string), max price,
max stops on the primary itinerary, and airline subset, AND-combined. -/
def tableKeeps (carriers : List (String × String)) (tf : TableFilters)
    (flight : FlightOffer) : Bool :=
  (if tf.search ≠ "" then matchesSearch carriers tf.search flight else true) &&
  (match tf.maxPrice with
   | some p => getFlightPrice flight ≤ p
   | none => true) &&
  (match tf.maxStops with
   | some s =>
     getStopCount ((flight.itineraries.head?.map FlightItinerary.segments).getD []) ≤ s
   | none => true) &&
  (match tf.airlines with
   | [] => true
   | _ => flight.validatingAirlineCodes.any (fun code => tf.airlines.contains code))

/-- The table-filtered list of `FlightList`. -/
def tableFilteredFlights (carriers : List (String × String)) (tf : TableFilters)
    (flights : List FlightOffer) : List FlightOffer :=
  flights.filter (tableKeeps carriers tf)

/-- `lowestPriceId`: `null` when the table-filtered list is empty,
otherwise the id of the head of a stable sort by ascending parsed price. -/
def lowestPriceId (filtered : List FlightOffer) : Option String :=
  if filtered.length = 0 then none
  else
    ((filtered.mergeSort
        (fun a b => getFlightPrice a ≤ getFlightPrice b)).head?).map FlightOffer.id

/-- The `isLowest` flag passed to each rendered row:
`flight.id === lowestPriceId` (`null === id` is false). -/
def isLowest (filtered : List FlightOffer) (flight : FlightOffer) : Bool :=
  lowestPriceId filtered == some flight.id

/-- `paginatedFlights`: `filtered.slice(page * rowsPerPage, page * rowsPerPage
+ rowsPerPage)`. -/
def paginatedFlights (filtered : List FlightOffer) (page rowsPerPage : Nat) :
    List FlightOffer :=
  (filtered.drop (page * rowsPerPage)).take rowsPerPage

/-- The component state of `FlightList` the pagination claims concern. -/
structure FlightListState where
  flights : List FlightOffer
  page : Nat
  rowsPerPage : Nat
  tableFilters : TableFilters
deriving DecidableEq, Repr

/-- A table-filter change: the handler stores the new filter object and the
`useEffect` with dependencies `[flights.length, tableFilters]` fires on the
fresh object and resets the page to 0. -/
def onSetTableFilters (s : FlightListState) (tf : TableFilters) : FlightListState :=
  { s with tableFilters := tf, page := 0 }

/-- The flights prop changing: the reset effect depends on `flights.length`
(not on the list itself), so the page resets only when the length of the
new list differs from the old one. -/
def onSetFlights (s : FlightListState) (flights : List FlightOffer) : FlightListState :=
  { s with
    flights := flights
    page := if flights.length = s.flights.length then s.page else 0 }

/-- The page-size selector's change handler: `setRowsPerPage(...)` then
`setPage(0)`. -/
def onSetRowsPerPage (s : FlightListState) (n : Nat) : FlightListState :=
  { s with rowsPerPage := n, page := 0 }

/-- The page displayed for a state: the slice of the table-filtered list. -/
def displayedPage (carriers : List (String × String)) (s : FlightListState) :
    List FlightOffer :=
  paginatedFlights (tableFilteredFlights carriers s.tableFilters s.flights)
    s.page s.rowsPerPage

/-! ## `src/hooks/useSeatmap.ts` — seat processing and cabin grouping -/

/-- Cabin class (`CabinClass`). -/
inductive CabinClass where
  | first
  | business
  | premiumEconomy
  | economy
deriving DecidableEq, Repr

/-- A seat price entry (`price.total` is the decimal string as `ℚ`). -/
structure SeatPrice where
  currency : String
  total : ℚ
deriving DecidableEq, Repr

/-- One traveler-pricing entry of a seat. -/
structure TravelerPricing where
  price : Option SeatPrice
deriving DecidableEq, Repr

/-- Raw seat (`Seat`), restricted to the fields the hook reads. -/
structure Seat where
  number : String
  cabin : CabinClass
  characteristicsCodes : Option (List String)
  travelerPricing : Option (List TravelerPricing)
deriving DecidableEq, Repr

/-- One deck of a seat map; `seats` is optional (`deck.seats || []`). -/
structure Deck where
  seats : Option (List Seat)
deriving DecidableEq, Repr

/-- One seat map (`Seatmap`): a segment id and its decks. -/
structure Seatmap where
  segmentId : String
  decks : List Deck
deriving DecidableEq, Repr

/-- The result of `parseSeatNumber`. -/
structure RowColumn where
  row : Nat
  column : String
deriving DecidableEq, Repr

/-- `parseSeatNumber`: match `^(\d+)([A-Z]+)$` case-insensitively — a
non-empty leading digit run followed by a non-empty all-letter remainder;
on a match return the digits' value and the uppercased letters, otherwise
the sentinel `{row: 0, column: ""}` (the function is total: it never
throws). The greedy `\d+` can only bind the maximal digit run, since a
shorter run would leave a digit for `[A-Z]+`. -/
def parseSeatNumber (seatNumber : String) : RowColumn :=
  let cs := seatNumber.toList
  let digits := cs.takeWhile Char.isDigit
  let rest := cs.dropWhile Char.isDigit
  if digits ≠ [] ∧ rest ≠ [] ∧ rest.all Char.isAlpha then
    { row := digitsToNat digits, column := String.mk (rest.map Char.toUpper) }
  else
    { row := 0, column := "" }

/-- `hasCharacteristic`: `seat.characteristicsCodes?.includes(code) ?? false`. -/
def hasCharacteristic (seat : Seat) (code : String) : Bool :=
  match seat.characteristicsCodes with
  | some codes => codes.contains code
  | none => false

/-- `ProcessedSeat`: the raw seat fields plus the derived UI fields. -/
structure ProcessedSeat where
  number : String
  cabin : CabinClass
  characteristicsCodes : Option (List String)
  travelerPricing : Option (List TravelerPricing)
  row : Nat
  column : String
  isWindow : Bool
  isAisle : Bool
  isMiddle : Bool
  isExitRow : Bool
  isExtraLegroom : Bool
  isPremium : Bool
  isSelected : Bool
  displayPrice : Option String
deriving DecidableEq, Repr

/-- `processSeat`: parse the seat number, derive the characteristic flags,
format the optional display price (`toFixed(0)` rounds half toward
positive infinity, as `jsRound`), and set `isSelected` by exact string
comparison with the optional caller-supplied selected seat number
(`seat.number === undefined` is false). -/
def processSeat (seat : Seat) (selectedSeatNumber : Option String) : ProcessedSeat :=
  let parsed := parseSeatNumber seat.number
  let isWindow := hasCharacteristic seat "W"
  let isAisle := hasCharacteristic seat "A"
  let isMiddle := hasCharacteristic seat "M" || (!isWindow && !isAisle)
  let displayPrice :=
    match seat.travelerPricing with
    | some (tp :: _) =>
      match tp.price with
      | some price =>
        some (price.currency ++ " " ++ toString (jsRound price.total))
      | none => none
    | _ => none
  { number := seat.number
    cabin := seat.cabin
    characteristicsCodes := seat.characteristicsCodes
    travelerPricing := seat.travelerPricing
    row := parsed.row
    column := parsed.column
    isWindow := isWindow
    isAisle := isAisle
    isMiddle := isMiddle
    isExitRow := hasCharacteristic seat "E"
    isExtraLegroom := hasCharacteristic seat "L"
    isPremium := hasCharacteristic seat "P" || hasCharacteristic seat "CH"
    isSelected := selectedSeatNumber == some seat.number
    displayPrice := displayPrice }

/-- The fixed cabin priority order. -/
def cabinOrder : List CabinClass :=
  [.first, .business, .premiumEconomy, .economy]

/-- The display-name dictionary. -/
def cabinDisplayName : CabinClass → String
  | .first => "First Class"
  | .business => "Business Class"
  | .premiumEconomy => "Premium Economy"
  | .economy => "Economy"

/-- Minimum of a `Nat` list (`Math.min(...rows)` on a non-empty list). -/
def natListMin : List Nat → Nat
  | [] => 0
  | x :: xs => xs.foldl min x

/-- Maximum of a `Nat` list (`Math.max(...rows)` on a non-empty list). -/
def natListMax : List Nat → Nat
  | [] => 0
  | x :: xs => xs.foldl max x

/-- `[...new Set(xs)]`: deduplicate keeping first occurrences. -/
def jsSetDedup : List Nat → List Nat
  | [] => []
  | x :: xs => x :: (jsSetDedup xs).filter (fun y => y ≠ x)

/-- `[...new Set(xs)]` for strings. -/
def jsSetDedupStr : List String → List String
  | [] => []
  | x :: xs => x :: (jsSetDedupStr xs).filter (fun y => y ≠ x)

/-- One rendered cabin section (`CabinSection`). -/
structure CabinSection where
  cabin : CabinClass
  displayName : String
  seats : List ProcessedSeat
  rows : List Nat
  columns : List String
  startRow : Nat
  endRow : Nat
deriving DecidableEq, Repr

/-- One iteration of the `for (const cabin of cabinOrder)` loop of
`groupSeatsByCabin`: the cabin's seats in input order (the
insertion-ordered `Map` grouping yields exactly the in-order sublist of
seats of that cabin), `none` when the cabin has no seats, otherwise a
section with the sorted distinct rows and columns and the row span. -/
def cabinSectionFor (seats : List ProcessedSeat) (cabin : CabinClass) :
    Option CabinSection :=
  let cabinSeats := seats.filter (fun s => s.cabin = cabin)
  if cabinSeats.isEmpty then none
  else
    let rows :=
      (jsSetDedup (cabinSeats.map ProcessedSeat.row)).mergeSort (fun a b => a ≤ b)
    let columns :=
      (jsSetDedupStr (cabinSeats.map ProcessedSeat.column)).mergeSort
        (fun a b => !decide (b < a))
    some
      { cabin := cabin
        displayName := cabinDisplayName cabin
        seats := cabinSeats
        rows := rows
        columns := columns
        startRow := natListMin rows
        endRow := natListMax rows }

/-- `groupSeatsByCabin`: walk the fixed cabin order, skipping cabins with
no seats and emitting one section per inhabited cabin. -/
def groupSeatsByCabin (seats : List ProcessedSeat) : List CabinSection :=
  cabinOrder.filterMap (cabinSectionFor seats)

/-- All seats of a seat map: `seatmap.decks.flatMap(deck => deck.seats || [])`. -/
def allSeats (seatmap : Seatmap) : List Seat :=
  seatmap.decks.flatMap (fun deck => deck.seats.getD [])

/-- `getCabinSections`: flatten the decks, process every seat *without* a
selected seat number, and group by cabin. -/
def getCabinSections (seatmap : Seatmap) : List CabinSection :=
  groupSeatsByCabin ((allSeats seatmap).map (fun seat => processSeat seat none))

/-- `processSeats`: flatten the decks and process every seat with the
caller's selected seat number. -/
def processSeats (seatmap : Seatmap) (selectedSeatNumber : Option String) :
    List ProcessedSeat :=
  (allSeats seatmap).map (fun seat => processSeat seat selectedSeatNumber)

/-! ## Filter-specification refinement -/

/-- `F2` activates every predicate `F1` activates, with the same
parameters (each of the four predicate slots of `F1` is either inactive —
empty stop list, empty airline list, inactive price range (`min ≤ 0` and
unbounded max, so the price stage is skipped), no duration ceiling — or
carried over unchanged into `F2`). This is the `F1 ⊆ F2` relation of the
monotonicity property; `F2` may additionally activate any further
predicates. -/
def FilterRefines (F1 F2 : FlightFilters) : Prop :=
  (F1.stops = [] ∨ F2.stops = F1.stops) ∧
  ((¬ (F1.priceRange.min > 0 ∨ F1.priceRange.max ≠ none)) ∨
    F2.priceRange = F1.priceRange) ∧
  (F1.airlines = [] ∨ F2.airlines = F1.airlines) ∧
  (F1.duration = none ∨ F2.duration = F1.duration)

/-! ## Sample data used by the concrete witnesses -/

/-- A sample direct segment. -/
def sampleSegment (stops : Nat) (at' : Int) : FlightSegment :=
  { numberOfStops := stops
    departureAt := at'
    departureIata := "LOS"
    arrivalIata := "LHR" }

/-- A non-stop offer priced 500. -/
def offerA : FlightOffer :=
  { id := "A"
    itineraries := [{ duration := "PT2H30M", segments := [sampleSegment 0 100] }]
    price := { grandTotal := 500, currency := "USD" }
    validatingAirlineCodes := ["BA"] }

/-- A two-stop offer priced 300 (two segments, one own stop). -/
def offerB : FlightOffer :=
  { id := "B"
    itineraries :=
      [{ duration := "PT5H10M"
         segments := [sampleSegment 0 50, sampleSegment 1 60] }]
    price := { grandTotal := 300, currency := "USD" }
    validatingAirlineCodes := ["AF"] }

/-- A non-stop offer priced 400. -/
def offerC : FlightOffer :=
  { id := "C"
    itineraries := [{ duration := "PT3H0M", segments := [sampleSegment 0 70] }]
    price := { grandTotal := 400, currency := "USD" }
    validatingAirlineCodes := ["BA"] }

/-- A non-stop offer priced 450. -/
def offerD : FlightOffer :=
  { id := "D"
    itineraries := [{ duration := "PT4H0M", segments := [sampleSegment 0 80] }]
    price := { grandTotal := 450, currency := "USD" }
    validatingAirlineCodes := ["LH"] }

/-- A second 450-priced offer: a price tie with `offerD`. -/
def offerE : FlightOffer :=
  { id := "E"
    itineraries := [{ duration := "PT6H0M", segments := [sampleSegment 0 90] }]
    price := { grandTotal := 450, currency := "USD" }
    validatingAirlineCodes := ["KL"] }

/-- The empty table filter (the component's initial state). -/
def emptyTableFilters : TableFilters :=
  { search := "", maxPrice := none, maxStops := none, airlines := [] }

/-- An economy window seat "12A". -/
def seatEco12A : Seat :=
  { number := "12A"
    cabin := .economy
    characteristicsCodes := some ["W"]
    travelerPricing := none }

/-- A business aisle seat "2C". -/
def seatBiz2C : Seat :=
  { number := "2C"
    cabin := .business
    characteristicsCodes := some ["A"]
    travelerPricing := none }

/-- A seat with an unparseable number. -/
def seatBad : Seat :=
  { number := "bad"
    cabin := .economy
    characteristicsCodes := none
    travelerPricing := none }

/-- A one-deck seat map holding the three sample seats. -/
def sampleSeatmap : Seatmap :=
  { segmentId := "S1"
    decks := [{ seats := some [seatEco12A, seatBiz2C, seatBad] }] }

/-! ## Theorems -/

/-- Bucket membership of `stopMatches`, spelled out arithmetically. -/
theorem stopMatches_iff (b : StopFilter) (n : Nat) :
    stopMatches b n = true ↔
      (b = StopFilter.nonStop ∧ n = 0) ∨ (b = StopFilter.oneStop ∧ n = 1) ∨
      (b = StopFilter.twoPlusStops ∧ 2 ≤ n) := by
  cases b <;> simp [stopMatches]

/-- C1. Stop filtering: with a non-empty stop-bucket selection, an offer is
kept by the stop-filtering stage iff it is an input offer whose stop count
(`getFlightStops`: the sum over all itineraries of each segment's own
stops plus `segments.length − 1` connections) falls in some selected
bucket (non-stop ⇔ 0, 1-stop ⇔ 1, 2-or-more ⇔ ≥ 2); filtering by the
single bucket non-stop yields exactly the sub-list of offers with summed
stop count 0. -/
theorem stop_bucket_filtering (stops : List StopFilter)
    (flights : List FlightOffer) (fl : FlightOffer) (hne : stops ≠ []) :
    (fl ∈ filterByStops stops flights ↔
      fl ∈ flights ∧ ∃ b ∈ stops,
        (b = StopFilter.nonStop ∧ getFlightStops fl = 0) ∨
        (b = StopFilter.oneStop ∧ getFlightStops fl = 1) ∨
        (b = StopFilter.twoPlusStops ∧ 2 ≤ getFlightStops fl)) ∧
    (∀ o : SortOption,
      fl ∈ filteredFlights flights
          { stops := stops, priceRange := { min := 0, max := none },
            airlines := [], duration := none } o ↔
        fl ∈ flights ∧ ∃ b ∈ stops,
          (b = StopFilter.nonStop ∧ getFlightStops fl = 0) ∨
          (b = StopFilter.oneStop ∧ getFlightStops fl = 1) ∨
          (b = StopFilter.twoPlusStops ∧ 2 ≤ getFlightStops fl)) ∧
    filterByStops [StopFilter.nonStop] flights =
      flights.filter (fun g => getFlightStops g = 0) := by
  have hcond : ¬ (stops.isEmpty = true) := by
    simpa [List.isEmpty_iff] using hne
  have hstage : fl ∈ filterByStops stops flights ↔
      fl ∈ flights ∧ ∃ b ∈ stops,
        (b = StopFilter.nonStop ∧ getFlightStops fl = 0) ∨
        (b = StopFilter.oneStop ∧ getFlightStops fl = 1) ∨
        (b = StopFilter.twoPlusStops ∧ 2 ≤ getFlightStops fl) := by
    simp only [filterByStops, if_neg hcond, List.mem_filter, List.any_eq_true,
      stopMatches_iff]
  refine ⟨hstage, ?_, ?_⟩
  · intro o
    have hprice : filterByPrice { min := 0, max := none }
        (globalPriceRange flights) (filterByStops stops flights) =
          filterByStops stops flights := by
      unfold filterByPrice
      rw [if_neg]
      simp
    have hair : filterByAirlines [] (filterByStops stops flights) =
        filterByStops stops flights := by
      simp [filterByAirlines]
    have hdur : filterByDuration none (filterByStops stops flights) =
        filterByStops stops flights := rfl
    simp only [filteredFlights, hprice, hair, hdur, sortFlights,
      List.mem_mergeSort]
    exact hstage
  · have hcond1 : ¬ (([StopFilter.nonStop] : List StopFilter).isEmpty = true) := by
      simp
    simp only [filterByStops, if_neg hcond1]
    apply List.filter_congr
    intro g _
    by_cases h0 : getFlightStops g = 0 <;> simp [stopMatches, h0]

/-- Witness for C1 on concrete offers (`offerA` non-stop, `offerB` with
two stops). -/
theorem stop_bucket_filtering_witness :
    ([StopFilter.nonStop] ≠ ([] : List StopFilter)) ∧
    filterByStops [StopFilter.nonStop] [offerA, offerB] =
      [offerA, offerB].filter (fun g => getFlightStops g = 0) :=
  ⟨by decide,
   (stop_bucket_filtering [StopFilter.nonStop] [offerA, offerB] offerA
      (by decide)).2.2⟩

/-- Unfolding of a successful `cabinSectionFor`. -/
theorem cabinSectionFor_some (seats : List ProcessedSeat) (c : CabinClass)
    (sec : CabinSection) (h : cabinSectionFor seats c = some sec) :
    sec.cabin = c ∧ sec.seats = seats.filter (fun s => s.cabin = c) ∧
      sec.seats ≠ [] := by
  by_cases hemp : (seats.filter (fun s => s.cabin = c)).isEmpty = true
  · simp [cabinSectionFor, hemp] at h
  · simp only [cabinSectionFor, if_neg hemp] at h
    injection h with h
    refine ⟨?_, ?_, ?_⟩
    · rw [← h]
    · rw [← h]
    · rw [← h]
      simpa [List.isEmpty_iff] using hemp

/-- `cabinSectionFor` succeeds exactly on inhabited cabins. -/
theorem cabinSectionFor_isSome (seats : List ProcessedSeat) (c : CabinClass) :
    (cabinSectionFor seats c).isSome = true ↔
      seats.filter (fun s => s.cabin = c) ≠ [] := by
  by_cases hemp : (seats.filter (fun s => s.cabin = c)).isEmpty = true
  · simp [cabinSectionFor, hemp, List.isEmpty_iff.mp hemp]
  · simp only [cabinSectionFor, if_neg hemp, Option.isSome_some, true_iff]
    simpa [List.isEmpty_iff] using hemp

/-- Every cabin class is listed in `cabinOrder`. -/
theorem mem_cabinOrder (c : CabinClass) : c ∈ cabinOrder := by
  cases c <;> simp [cabinOrder]

/-- C10. In the cabin-grouping path (`getCabinSections`), seat selection is
never applied: every seat of every returned section has
`isSelected = false`, because that path calls `processSeat` without a
selected seat number and `seat.number === undefined` is false. -/
theorem cabin_sections_unselected (seatmap : Seatmap) (sec : CabinSection)
    (st : ProcessedSeat) (hsec : sec ∈ getCabinSections seatmap)
    (hst : st ∈ sec.seats) : st.isSelected = false := by
  simp only [getCabinSections, groupSeatsByCabin, List.mem_filterMap] at hsec
  obtain ⟨c, -, hc⟩ := hsec
  obtain ⟨-, hseats, -⟩ := cabinSectionFor_some _ _ _ hc
  rw [hseats] at hst
  have hmem := List.mem_of_mem_filter hst
  simp only [List.mem_map] at hmem
  obtain ⟨seat, -, hEq⟩ := hmem
  rw [← hEq]
  rfl

/-- Witness for C10: the business section of the sample seat map holds the
processed "2C" seat, and it is unselected. -/
theorem cabin_sections_unselected_witness :
    (processSeat seatBiz2C none).isSelected = false := by
  have hsec :
      ∃ sec ∈ getCabinSections sampleSeatmap,
        processSeat seatBiz2C none ∈ sec.seats := by decide
  obtain ⟨sec, hsec, hst⟩ := hsec
  exact cabin_sections_unselected sampleSeatmap sec (processSeat seatBiz2C none)
    hsec hst

/-- A filtered list is non-empty iff some element satisfies the predicate. -/
theorem filter_ne_nil_iff {α : Type} {p : α → Bool} {l : List α} :
    l.filter p ≠ [] ↔ ∃ x ∈ l, p x = true := by
  rw [Ne, List.filter_eq_nil_iff]
  push_neg
  simp

/-- The cabins of the grouped sections are the inhabited entries of the
fixed cabin order. -/
theorem groupSeats_map_cabin (seats : List ProcessedSeat) :
    ∀ cs : List CabinClass,
      (cs.filterMap (cabinSectionFor seats)).map CabinSection.cabin =
        cs.filter (fun c => (cabinSectionFor seats c).isSome) := by
  intro cs
  induction cs with
  | nil => simp
  | cons c cs ih =>
    cases h : cabinSectionFor seats c with
    | none => simp [List.filterMap_cons, h, ih]
    | some sec =>
      simp [List.filterMap_cons, h, ih, (cabinSectionFor_some _ _ _ h).1]

/-- C8. Cabin-section ordering: the grouped sections list cabins as a
subsequence of the fixed order FIRST, BUSINESS, PREMIUM_ECONOMY, ECONOMY;
each emitted section is non-empty and holds exactly the processed seats of
its cabin (in input order); a cabin appears iff it has a seat; and for
seats drawn only from {ECONOMY, BUSINESS} with both inhabited, the section
cabins are exactly [BUSINESS, ECONOMY]. -/
theorem cabin_section_ordering (seats : List ProcessedSeat) :
    ((groupSeatsByCabin seats).map CabinSection.cabin).Sublist cabinOrder ∧
    (∀ sec ∈ groupSeatsByCabin seats,
      sec.seats = seats.filter (fun s => s.cabin = sec.cabin) ∧ sec.seats ≠ []) ∧
    (∀ c : CabinClass,
      (∃ sec ∈ groupSeatsByCabin seats, sec.cabin = c) ↔ ∃ s ∈ seats, s.cabin = c) ∧
    ((∀ s ∈ seats, s.cabin = CabinClass.economy ∨ s.cabin = CabinClass.business) →
      (∃ s ∈ seats, s.cabin = CabinClass.economy) →
      (∃ s ∈ seats, s.cabin = CabinClass.business) →
      (groupSeatsByCabin seats).map CabinSection.cabin =
        [CabinClass.business, CabinClass.economy]) := by
  have hmapc := groupSeats_map_cabin seats cabinOrder
  refine ⟨?_, ?_, ?_, ?_⟩
  · rw [groupSeatsByCabin, hmapc]
    exact List.filter_sublist _
  · intro sec hsec
    rw [groupSeatsByCabin, List.mem_filterMap] at hsec
    obtain ⟨c, -, hc⟩ := hsec
    obtain ⟨hcab, hseats, hne⟩ := cabinSectionFor_some _ _ _ hc
    exact ⟨by rw [hcab, hseats], hne⟩
  · intro c
    constructor
    · rintro ⟨sec, hsec, rfl⟩
      rw [groupSeatsByCabin, List.mem_filterMap] at hsec
      obtain ⟨c', -, hc'⟩ := hsec
      obtain ⟨hcab, hseats, hne⟩ := cabinSectionFor_some _ _ _ hc'
      rw [hseats] at hne
      obtain ⟨s, hs, hp⟩ := filter_ne_nil_iff.mp hne
      exact ⟨s, hs, by rw [hcab]; exact of_decide_eq_true hp⟩
    · rintro ⟨s, hs, hcab⟩
      have hne : seats.filter (fun t => t.cabin = c) ≠ [] :=
        filter_ne_nil_iff.mpr ⟨s, hs, decide_eq_true hcab⟩
      have hsome := (cabinSectionFor_isSome seats c).mpr hne
      obtain ⟨sec, hsec⟩ := Option.isSome_iff_exists.mp hsome
      refine ⟨sec, ?_, (cabinSectionFor_some _ _ _ hsec).1⟩
      rw [groupSeatsByCabin, List.mem_filterMap]
      exact ⟨c, mem_cabinOrder c, hsec⟩
  · intro hall heco hbiz
    have hfirst : (cabinSectionFor seats CabinClass.first).isSome = false := by
      rw [Bool.eq_false_iff, Ne, cabinSectionFor_isSome]
      simp only [ne_eq, not_not, List.filter_eq_nil_iff]
      intro s hs
      rcases hall s hs with h | h <;> simp [h]
    have hprem : (cabinSectionFor seats CabinClass.premiumEconomy).isSome = false := by
      rw [Bool.eq_false_iff, Ne, cabinSectionFor_isSome]
      simp only [ne_eq, not_not, List.filter_eq_nil_iff]
      intro s hs
      rcases hall s hs with h | h <;> simp [h]
    have hbiz' : (cabinSectionFor seats CabinClass.business).isSome = true := by
      rw [cabinSectionFor_isSome]
      obtain ⟨s, hs, hcab⟩ := hbiz
      exact filter_ne_nil_iff.mpr ⟨s, hs, decide_eq_true hcab⟩
    have heco' : (cabinSectionFor seats CabinClass.economy).isSome = true := by
      rw [cabinSectionFor_isSome]
      obtain ⟨s, hs, hcab⟩ := heco
      exact filter_ne_nil_iff.mpr ⟨s, hs, decide_eq_true hcab⟩
    rw [groupSeatsByCabin, hmapc]
    simp [cabinOrder, List.filter_cons, hfirst, hprem, hbiz', heco']

/-- Witness for C8: an economy seat and a business seat group into
sections ordered [BUSINESS, ECONOMY]. -/
theorem cabin_section_ordering_witness :
    (groupSeatsByCabin
        [processSeat seatEco12A none, processSeat seatBiz2C none]).map
      CabinSection.cabin = [CabinClass.business, CabinClass.economy] :=
  (cabin_section_ordering
      [processSeat seatEco12A none, processSeat seatBiz2C none]).2.2.2
    (by decide) (by decide) (by decide)

/-- C9. Seat-number parse robustness: `parseSeatNumber` is a total
function (the embedding never throws); "12A" parses to row 12 column "A",
"7F" to row 7 column "F"; every string that does not match
digits-then-letters (non-empty leading digit run followed by a non-empty
all-letter remainder) yields the sentinel row 0 / empty column; and a seat
with an unparseable number is still processed: `processSeats` keeps one
processed seat per raw seat, never dropping a record. -/
theorem seat_parse_robustness :
    parseSeatNumber "12A" = { row := 12, column := "A" } ∧
    parseSeatNumber "7F" = { row := 7, column := "F" } ∧
    parseSeatNumber "bad" = { row := 0, column := "" } ∧
    (∀ s : String,
      ¬ (s.toList.takeWhile Char.isDigit ≠ [] ∧
         s.toList.dropWhile Char.isDigit ≠ [] ∧
         (s.toList.dropWhile Char.isDigit).all Char.isAlpha = true) →
      parseSeatNumber s = { row := 0, column := "" }) ∧
    (∀ (sm : Seatmap) (sel : Option String),
      (processSeats sm sel).length = (allSeats sm).length ∧
      ∀ seat ∈ allSeats sm, processSeat seat sel ∈ processSeats sm sel) := by
  refine ⟨by decide, by decide, by decide, ?_, ?_⟩
  · intro s h
    simp only [parseSeatNumber]
    rw [if_neg]
    simpa using h
  · intro sm sel
    constructor
    · simp [processSeats]
    · intro seat hs
      simp only [processSeats, List.mem_map]
      exact ⟨seat, hs, rfl⟩

/-- Witness for C9: "p9" does not match the pattern and parses to the
sentinel; the seat with the unparseable number "bad" is still present in
the processed output of the sample seat map. -/
theorem seat_parse_robustness_witness :
    parseSeatNumber "p9" = { row := 0, column := "" } ∧
    processSeat seatBad none ∈ processSeats sampleSeatmap none :=
  ⟨seat_parse_robustness.2.2.2.1 "p9" (by decide),
   (seat_parse_robustness.2.2.2.2 sampleSeatmap none).2 seatBad (by decide)⟩

/-- Each sort key's order is transitive. -/
theorem sortLe_trans (o : SortOption) (a b c : FlightOffer) :
    sortLe o a b = true → sortLe o b c = true → sortLe o a c = true := by
  cases o <;> simp only [sortLe, decide_eq_true_eq]
  · exact le_trans
  · exact fun h1 h2 => le_trans h2 h1
  · exact Nat.le_trans
  · exact Int.le_trans

/-- Each sort key's order is total. -/
theorem sortLe_total (o : SortOption) (a b : FlightOffer) :
    (sortLe o a b || sortLe o b a) = true := by
  cases o <;>
    simp only [sortLe, Bool.or_eq_true, decide_eq_true_eq] <;>
    exact le_total _ _

/-- C6. The engine's sort is stable: two offers tied under the selected
key (each `≤` the other) keep their input order in the sorted output;
sorting a list already sorted by the key is the identity; and deriving the
view twice from identical inputs yields the identical list. -/
theorem sort_stable (o : SortOption) (l : List FlightOffer) :
    (∀ a b : FlightOffer, [a, b].Sublist l → sortLe o a b = true →
      sortLe o b a = true → [a, b].Sublist (sortFlights o l)) ∧
    (l.Pairwise (fun a b => sortLe o a b = true) → sortFlights o l = l) ∧
    (∀ (flights : List FlightOffer) (filters : FlightFilters),
      filteredFlights flights filters o = filteredFlights flights filters o) := by
  refine ⟨?_, ?_, fun _ _ => rfl⟩
  · intro a b hsub hab _
    exact List.sublist_mergeSort (sortLe_trans o) (sortLe_total o)
      (List.pairwise_pair.mpr hab) hsub
  · intro hsorted
    exact List.mergeSort_of_sorted hsorted

/-- Witness for C6: the price tie `offerD`, `offerE` keeps its input order
when sorting by ascending price. -/
theorem sort_stable_witness :
    sortLe SortOption.priceAsc offerD offerE = true ∧
    sortLe SortOption.priceAsc offerE offerD = true ∧
    [offerD, offerE].Sublist
      (sortFlights SortOption.priceAsc [offerB, offerD, offerE]) :=
  ⟨by decide, by decide,
   (sort_stable SortOption.priceAsc [offerB, offerD, offerE]).1 offerD offerE
     (List.Sublist.cons offerB (List.Sublist.refl [offerD, offerE]))
     (by decide) (by decide)⟩

/-- C2. For every non-empty table-filtered offer list with distinct ids,
exactly one offer carries the `isLowest` flag, and that offer's parsed
price is minimal over the whole table-filtered set; on any displayed page
(a slice of the filtered list, possibly a later one) an offer is flagged
iff it is that minimal offer. -/
theorem lowest_price_flag (filtered : List FlightOffer) (hne : filtered ≠ [])
    (hid : (filtered.map FlightOffer.id).Nodup) :
    ∃ fl ∈ filtered,
      isLowest filtered fl = true ∧
      (∀ g ∈ filtered, isLowest filtered g = true → g = fl) ∧
      (∀ g ∈ filtered, getFlightPrice fl ≤ getFlightPrice g) ∧
      (∀ (page rowsPerPage : Nat) (g : FlightOffer),
        g ∈ paginatedFlights filtered page rowsPerPage →
        (isLowest filtered g = true ↔ g = fl)) := by
  have htrans : ∀ a b c : FlightOffer,
      decide (getFlightPrice a ≤ getFlightPrice b) = true →
      decide (getFlightPrice b ≤ getFlightPrice c) = true →
      decide (getFlightPrice a ≤ getFlightPrice c) = true := by
    intro a b c hab hbc
    rw [decide_eq_true_eq] at *
    exact le_trans hab hbc
  have htotal : ∀ a b : FlightOffer,
      (decide (getFlightPrice a ≤ getFlightPrice b) ||
        decide (getFlightPrice b ≤ getFlightPrice a)) = true := by
    intro a b
    simp only [Bool.or_eq_true, decide_eq_true_eq]
    exact le_total _ _
  have h0 : ¬ (filtered.length = 0) := by
    simpa [List.length_eq_zero] using hne
  have hsne :
      filtered.mergeSort
        (fun a b => getFlightPrice a ≤ getFlightPrice b) ≠ [] := by
    intro hcon
    apply h0
    simpa using congrArg List.length hcon
  obtain ⟨fl, t, hst⟩ := List.exists_cons_of_ne_nil hsne
  have hmem : fl ∈ filtered := by
    have hm :
        fl ∈ filtered.mergeSort
          (fun a b => getFlightPrice a ≤ getFlightPrice b) := by
      rw [hst]
      exact List.mem_cons_self _ _
    exact List.mem_mergeSort.mp hm
  have hlow : lowestPriceId filtered = some fl.id := by
    simp [lowestPriceId, if_neg h0, hst, hne]
  have hflag : isLowest filtered fl = true := by
    simp [isLowest, hlow]
  have hmin : ∀ g ∈ filtered, getFlightPrice fl ≤ getFlightPrice g := by
    intro g hg
    have hg2 :
        g ∈ filtered.mergeSort
          (fun a b => getFlightPrice a ≤ getFlightPrice b) :=
      List.mem_mergeSort.mpr hg
    rw [hst] at hg2
    rcases List.mem_cons.mp hg2 with rfl | hg'
    · exact le_refl _
    · have hp := List.sorted_mergeSort htrans htotal filtered
      rw [hst] at hp
      have := List.rel_of_pairwise_cons hp hg'
      exact of_decide_eq_true this
  have huniq : ∀ g ∈ filtered, isLowest filtered g = true → g = fl := by
    intro g hg hflag'
    have hidEq : fl.id = g.id := by
      simp only [isLowest, hlow, beq_iff_eq, Option.some.injEq] at hflag'
      exact hflag'
    exact List.inj_on_of_nodup_map hid hg hmem hidEq.symm
  refine ⟨fl, hmem, hflag, huniq, hmin, ?_⟩
  intro page rowsPerPage g hg
  have hsub : (paginatedFlights filtered page rowsPerPage).Sublist filtered :=
    (List.take_sublist _ _).trans (List.drop_sublist _ _)
  have hg' : g ∈ filtered := hsub.mem hg
  constructor
  · exact huniq g hg'
  · rintro rfl
    exact hflag

/-- Witness for C2: over `[offerA, offerB]` the flagged offer exists, is
unique and is the cheapest. -/
theorem lowest_price_flag_witness :
    ([offerA, offerB] ≠ ([] : List FlightOffer)) ∧
    ([offerA, offerB].map FlightOffer.id).Nodup ∧
    ∃ fl ∈ [offerA, offerB], isLowest [offerA, offerB] fl = true ∧
      (∀ g ∈ [offerA, offerB], isLowest [offerA, offerB] g = true → g = fl) ∧
      (∀ g ∈ [offerA, offerB], getFlightPrice fl ≤ getFlightPrice g) ∧
      (∀ (page rowsPerPage : Nat) (g : FlightOffer),
        g ∈ paginatedFlights [offerA, offerB] page rowsPerPage →
        (isLowest [offerA, offerB] g = true ↔ g = fl)) :=
  ⟨by decide, by decide, lowest_price_flag [offerA, offerB] (by decide) (by decide)⟩

/-- A left fold of `min` is a lower bound of the initial value and of
every element. -/
theorem foldl_min_le (l : List ℚ) (a : ℚ) :
    l.foldl min a ≤ a ∧ ∀ x ∈ l, l.foldl min a ≤ x := by
  induction l generalizing a with
  | nil => simp
  | cons x xs ih =>
    refine ⟨?_, ?_⟩
    · exact le_trans (ih (min a x)).1 (min_le_left a x)
    · intro y hy
      rcases List.mem_cons.mp hy with rfl | hy'
      · exact le_trans (ih (min a y)).1 (min_le_right a y)
      · exact (ih (min a x)).2 y hy'

/-- A left fold of `max` is an upper bound of the initial value and of
every element. -/
theorem le_foldl_max (l : List ℚ) (a : ℚ) :
    a ≤ l.foldl max a ∧ ∀ x ∈ l, x ≤ l.foldl max a := by
  induction l generalizing a with
  | nil => simp
  | cons x xs ih =>
    refine ⟨?_, ?_⟩
    · exact le_trans (le_max_left a x) (ih (max a x)).1
    · intro y hy
      rcases List.mem_cons.mp hy with rfl | hy'
      · exact le_trans (le_max_right a y) (ih (max a y)).1
      · exact (ih (max a x)).2 y hy'

/-- A common lower bound of the initial value and all elements bounds a
left fold of `min` from below. -/
theorem le_foldl_min (l : List ℚ) (a c : ℚ) (ha : c ≤ a)
    (hl : ∀ x ∈ l, c ≤ x) : c ≤ l.foldl min a := by
  induction l generalizing a with
  | nil => exact ha
  | cons x xs ih =>
    exact ih (min a x) (le_min ha (hl x (List.mem_cons_self _ _)))
      (fun y hy => hl y (List.mem_cons_of_mem _ hy))

/-- C3, counterexample: with one offer priced 500 the global range is
`(500, 500)`; the filter range `(50, ∞)` differs from it in both bounds,
stops and airlines are empty and no duration ceiling is set, yet
`hasActiveFilters` is `false` — the code tests `min > global.min` /
`max < global.max`, not "differs from the global range". -/
theorem active_filters_counterexample :
    hasActiveFilters [offerA]
        { stops := [], priceRange := { min := 50, max := none },
          airlines := [], duration := none } = false ∧
    ((50 : ℚ) ≠ (globalPriceRange [offerA]).1 ∧
      (none : Option ℚ) ≠ some (globalPriceRange [offerA]).2) ∧
    ([] : List StopFilter) = [] ∧ ([] : List String) = [] ∧
    (none : Option Nat) = none := by
  decide

/-- C3, amended. `hasActiveFilters` is true iff the stop selection is
non-empty, or the airline selection is non-empty, or the filter's price
minimum exceeds the global observed minimum, or its maximum is finite and
lies below the global observed maximum, or a duration ceiling is set; for
every offer list whose prices are non-negative, the default filter
specification yields `false`. -/
theorem active_filters_amended (flights : List FlightOffer)
    (filters : FlightFilters)
    (hpos : ∀ fl ∈ flights, 0 ≤ getFlightPrice fl) :
    (hasActiveFilters flights filters = true ↔
      filters.stops ≠ [] ∨ filters.airlines ≠ [] ∨
      (globalPriceRange flights).1 < filters.priceRange.min ∨
      (∃ m, filters.priceRange.max = some m ∧ m < (globalPriceRange flights).2) ∨
      filters.duration ≠ none) ∧
    hasActiveFilters flights defaultFilters = false := by
  constructor
  · cases hmax : filters.priceRange.max with
    | none =>
      simp only [hasActiveFilters, hmax, Bool.or_eq_true, Bool.not_eq_true',
        List.isEmpty_eq_false, decide_eq_true_eq, Option.isSome_iff_ne_none,
        gt_iff_lt, Option.some.injEq, reduceCtorEq, false_and, exists_false,
        false_or, or_false, not_false_eq_true]
      tauto
    | some m =>
      simp only [hasActiveFilters, hmax, Bool.or_eq_true, Bool.not_eq_true',
        List.isEmpty_eq_false, decide_eq_true_eq, Option.isSome_iff_ne_none,
        gt_iff_lt, Option.some.injEq, exists_eq_left']
      tauto
  · cases flights with
    | nil => decide
    | cons f fs =>
      have hfold : (fs.map getFlightPrice).foldl min (getFlightPrice f) =
          fs.foldl (fun m g => min m (getFlightPrice g)) (getFlightPrice f) :=
        List.foldl_map _ _ _ _
      have hlow : (0 : ℚ) ≤
          fs.foldl (fun m g => min m (getFlightPrice g)) (getFlightPrice f) := by
        rw [← hfold]
        exact le_foldl_min _ _ 0 (hpos f (List.mem_cons_self _ _))
          (fun x hx => by
            obtain ⟨g, hg, rfl⟩ := List.mem_map.mp hx
            exact hpos g (List.mem_cons_of_mem _ hg))
      have hg1 : ¬ ((0 : ℚ) >
          ((⌊fs.foldl (fun m g => min m (getFlightPrice g))
              (getFlightPrice f)⌋ : ℤ) : ℚ)) := by
        rw [not_lt]
        have h1 : (0 : ℤ) ≤
            ⌊fs.foldl (fun m g => min m (getFlightPrice g)) (getFlightPrice f)⌋ :=
          Int.le_floor.mpr (by exact_mod_cast hlow)
        exact_mod_cast h1
      simp [hasActiveFilters, defaultFilters, globalPriceRange, hg1]

/-- Witness for amended C3: one non-negatively priced offer, default
filters, no active filter reported. -/
theorem active_filters_amended_witness :
    (∀ fl ∈ [offerA], 0 ≤ getFlightPrice fl) ∧
    hasActiveFilters [offerA] defaultFilters = false :=
  ⟨by decide, (active_filters_amended [offerA] defaultFilters (by decide)).2⟩

/-- C4, counterexample: replacing the offer list by a *different* list of
the same length does not reset the page — the reset effect depends on
`flights.length`, not on the list — contradicting the claim that changing
the underlying offer list resets the current page to the first page. -/
theorem page_reset_counterexample :
    (onSetFlights
        { flights := [offerA, offerB], page := 1, rowsPerPage := 1,
          tableFilters := emptyTableFilters }
        [offerC, offerD]).page = 1 ∧
    ([offerC, offerD] : List FlightOffer) ≠ [offerA, offerB] := by
  decide

/-- C4, amended. Changing any table filter or the page size resets the
current page to the first page; changing the underlying offer list resets
it when (and only to the extent that) the new list's length differs from
the old; the displayed page is the slice of the table-filtered list
starting at `page × pageSize`, of length at most `pageSize`. -/
theorem pagination_reset_amended (s : FlightListState) (tf : TableFilters)
    (flightsNew : List FlightOffer) (n : Nat)
    (carriers : List (String × String))
    (hlen : flightsNew.length ≠ s.flights.length) :
    (onSetTableFilters s tf).page = 0 ∧
    (onSetRowsPerPage s n).page = 0 ∧
    (onSetFlights s flightsNew).page = 0 ∧
    displayedPage carriers s =
      ((tableFilteredFlights carriers s.tableFilters s.flights).drop
          (s.page * s.rowsPerPage)).take s.rowsPerPage ∧
    (displayedPage carriers s).length ≤ s.rowsPerPage := by
  refine ⟨rfl, rfl, ?_, rfl, ?_⟩
  · simp [onSetFlights, hlen]
  · exact List.length_take_le _ _

/-- Witness for amended C4: shrinking the offer list from two offers to
one (a length change) resets the page to 0. -/
theorem pagination_reset_amended_witness :
    ([offerC] : List FlightOffer).length ≠
      ([offerA, offerB] : List FlightOffer).length ∧
    (onSetFlights
        { flights := [offerA, offerB], page := 1, rowsPerPage := 1,
          tableFilters := emptyTableFilters }
        [offerC]).page = 0 :=
  ⟨by decide,
   (pagination_reset_amended
      { flights := [offerA, offerB], page := 1, rowsPerPage := 1,
        tableFilters := emptyTableFilters }
      emptyTableFilters [offerC] 5 [] (by decide)).2.2.1⟩

/-- `incAt` preserves the number of buckets. -/
theorem incAt_length (bs : List PriceGraphDataPoint) (i : Nat) :
    (incAt bs i).length = bs.length := by
  induction bs generalizing i with
  | nil => rfl
  | cons b bs ih =>
    cases i with
    | zero => rfl
    | succ j => simpa [incAt] using ih j

/-- `incAt` at an in-range index adds exactly one to the total count. -/
theorem incAt_sum (bs : List PriceGraphDataPoint) (i : Nat)
    (h : i < bs.length) :
    ((incAt bs i).map PriceGraphDataPoint.price).sum =
      (bs.map PriceGraphDataPoint.price).sum + 1 := by
  induction bs generalizing i with
  | nil => simp at h
  | cons b bs ih =>
    cases i with
    | zero => simp [incAt, Nat.add_right_comm]
    | succ j =>
      have := ih j (by simpa using h)
      simp [incAt, this, Nat.add_assoc]

/-- The filling loop of the histogram: when the width is positive, there
is at least one bucket, and every price is at least the lower bound, each
flight lands in an in-range bucket, so the loop adds exactly one count per
flight and preserves the number of buckets. -/
theorem fillBuckets_sum (minP step : ℚ) (bucketCount : Nat)
    (hstep : 0 < step) (hbc : 1 ≤ bucketCount) :
    ∀ (fls : List FlightOffer) (bs : List PriceGraphDataPoint),
      bs.length = bucketCount →
      (∀ fl ∈ fls, minP ≤ getFlightPrice fl) →
      ((fillBuckets minP step bucketCount fls bs).map
          PriceGraphDataPoint.price).sum =
        (bs.map PriceGraphDataPoint.price).sum + fls.length ∧
      (fillBuckets minP step bucketCount fls bs).length = bucketCount := by
  intro fls
  induction fls with
  | nil =>
    intro bs hlen _
    simp [fillBuckets, hlen]
  | cons fl fls ih =>
    intro bs hlen hmin
    have hidx0 : 0 ≤ bucketIndexOf minP step bucketCount (getFlightPrice fl) := by
      unfold bucketIndexOf
      apply le_min
      · apply Int.floor_nonneg.mpr
        apply div_nonneg _ hstep.le
        have := hmin fl (List.mem_cons_self _ _)
        linarith
      · omega
    have hidxlt :
        bucketIndexOf minP step bucketCount (getFlightPrice fl) <
          (bs.length : ℤ) := by
      unfold bucketIndexOf
      rw [hlen]
      exact lt_of_le_of_lt (min_le_right _ _) (by omega)
    have hnat :
        (bucketIndexOf minP step bucketCount (getFlightPrice fl)).toNat <
          bs.length := by
      omega
    have step1 :
        fillBuckets minP step bucketCount (fl :: fls) bs =
          fillBuckets minP step bucketCount fls
            (incAt bs
              (bucketIndexOf minP step bucketCount (getFlightPrice fl)).toNat) := by
      simp only [fillBuckets, List.foldl_cons, if_pos (And.intro hidx0 hidxlt)]
    have hih := ih
      (incAt bs (bucketIndexOf minP step bucketCount (getFlightPrice fl)).toNat)
      (by rw [incAt_length]; exact hlen)
      (fun g hg => hmin g (List.mem_cons_of_mem _ hg))
    rw [step1]
    refine ⟨?_, hih.2⟩
    rw [hih.1, incAt_sum bs _ hnat]
    simp only [List.length_cons]
    omega

/-- `initialBuckets` has exactly `bucketCount` entries. -/
theorem initialBuckets_length (minP step : ℚ) (n : Nat) :
    (initialBuckets minP step n).length = n := by
  unfold initialBuckets
  rw [List.length_map, List.length_range]

/-- The reported minimum price is a lower bound of every visible price. -/
theorem priceStats_min_le (filtered : List FlightOffer) (fl : FlightOffer)
    (hmem : fl ∈ filtered) : (priceStats filtered).1 ≤ getFlightPrice fl := by
  cases filtered with
  | nil => cases hmem
  | cons f fs =>
    have hfold : (fs.map getFlightPrice).foldl min (getFlightPrice f) =
        fs.foldl (fun m g => min m (getFlightPrice g)) (getFlightPrice f) :=
      List.foldl_map _ _ _ _
    simp only [priceStats]
    rw [← hfold]
    rcases List.mem_cons.mp hmem with rfl | h
    · exact (foldl_min_le _ _).1
    · exact (foldl_min_le _ _).2 _ (List.mem_map_of_mem _ h)

/-- The reported minimum price never exceeds the reported maximum. -/
theorem priceStats_min_le_max (filtered : List FlightOffer)
    (hne : filtered ≠ []) : (priceStats filtered).1 ≤ (priceStats filtered).2.1 := by
  cases filtered with
  | nil => exact absurd rfl hne
  | cons f fs =>
    have hfoldmin : (fs.map getFlightPrice).foldl min (getFlightPrice f) =
        fs.foldl (fun m g => min m (getFlightPrice g)) (getFlightPrice f) :=
      List.foldl_map _ _ _ _
    have hfoldmax : (fs.map getFlightPrice).foldl max (getFlightPrice f) =
        fs.foldl (fun m g => max m (getFlightPrice g)) (getFlightPrice f) :=
      List.foldl_map _ _ _ _
    simp only [priceStats]
    rw [← hfoldmin, ← hfoldmax]
    exact le_trans (foldl_min_le _ _).1 (le_foldl_max _ _).1

/-- C5. Histogram conservation: for every non-empty visible offer list,
the histogram bucket counts sum to the size of the visible list, the
number of buckets is `min 10 n` and hence never exceeds 10; the proof
covers the single-price case (`min = max`), where the embedded bucket
width `(max − min)/bucketCount || 1` falls back to 1, so no division by
zero occurs. -/
theorem histogram_conservation (filtered : List FlightOffer)
    (hne : filtered ≠ []) :
    ((priceGraphData filtered).map PriceGraphDataPoint.price).sum =
      filtered.length ∧
    (priceGraphData filtered).length = Nat.min 10 filtered.length ∧
    (priceGraphData filtered).length ≤ 10 := by
  have h0 : ¬ (filtered.length = 0) := by
    simpa [List.length_eq_zero] using hne
  have hbc1 : 1 ≤ Nat.min 10 filtered.length :=
    Nat.le_min.mpr ⟨by omega, by omega⟩
  have hstep :
      (0 : ℚ) <
        (if ((priceStats filtered).2.1 - (priceStats filtered).1) /
              ((Nat.min 10 filtered.length : Nat) : ℚ) = 0 then 1
         else ((priceStats filtered).2.1 - (priceStats filtered).1) /
              ((Nat.min 10 filtered.length : Nat) : ℚ)) := by
    split
    · exact one_pos
    · rename_i hq
      have hle := priceStats_min_le_max filtered hne
      have hnn : (0 : ℚ) ≤
          ((priceStats filtered).2.1 - (priceStats filtered).1) /
            ((Nat.min 10 filtered.length : Nat) : ℚ) := by
        apply div_nonneg (by linarith)
        positivity
      exact lt_of_le_of_ne hnn (Ne.symm hq)
  have hfill := fillBuckets_sum (priceStats filtered).1 _
    (Nat.min 10 filtered.length) hstep hbc1 filtered
    (initialBuckets (priceStats filtered).1
      (if ((priceStats filtered).2.1 - (priceStats filtered).1) /
            ((Nat.min 10 filtered.length : Nat) : ℚ) = 0 then 1
        else ((priceStats filtered).2.1 - (priceStats filtered).1) /
            ((Nat.min 10 filtered.length : Nat) : ℚ))
      (Nat.min 10 filtered.length))
    (initialBuckets_length _ _ _)
    (fun fl hfl => priceStats_min_le filtered fl hfl)
  have hsum0 :
      ((initialBuckets (priceStats filtered).1
          (if ((priceStats filtered).2.1 - (priceStats filtered).1) /
                ((Nat.min 10 filtered.length : Nat) : ℚ) = 0 then 1
            else ((priceStats filtered).2.1 - (priceStats filtered).1) /
                ((Nat.min 10 filtered.length : Nat) : ℚ))
          (Nat.min 10 filtered.length)).map PriceGraphDataPoint.price).sum = 0 := by
    simp [initialBuckets, List.map_map, Function.comp_def]
  have hpgd :
      ((priceGraphData filtered).map PriceGraphDataPoint.price).sum =
        filtered.length ∧
      (priceGraphData filtered).length = Nat.min 10 filtered.length := by
    simp only [priceGraphData, if_neg h0]
    refine ⟨?_, ?_⟩
    · rw [hfill.1, hsum0]
      omega
    · exact hfill.2
  exact ⟨hpgd.1, hpgd.2, by rw [hpgd.2]; exact Nat.min_le_left _ _⟩

/-- Witness for C5 on two concretely priced offers. -/
theorem histogram_conservation_witness :
    ([offerA, offerB] : List FlightOffer) ≠ [] ∧
    ((priceGraphData [offerA, offerB]).map PriceGraphDataPoint.price).sum = 2 ∧
    (priceGraphData [offerA, offerB]).length ≤ 10 :=
  ⟨by decide,
   (histogram_conservation [offerA, offerB] (by decide)).1,
   (histogram_conservation [offerA, offerB] (by decide)).2.2⟩

/-- Stop-stage monotonicity: with `F1`'s stop predicate inactive or equal
to `F2`'s, the stage maps sublists to sublists. -/
theorem filterByStops_sublist (s1 s2 : List StopFilter)
    (h : s1 = [] ∨ s2 = s1) {l1 l2 : List FlightOffer} (hl : l2.Sublist l1) :
    (filterByStops s2 l2).Sublist (filterByStops s1 l1) := by
  have hsub2 : (filterByStops s2 l2).Sublist l2 := by
    unfold filterByStops
    split
    · exact List.Sublist.refl _
    · exact List.filter_sublist _
  rcases h with h | h
  · subst h
    have h1 : filterByStops [] l1 = l1 := by simp [filterByStops]
    rw [h1]
    exact hsub2.trans hl
  · subst h
    by_cases hc : s2.isEmpty = true
    · simp only [filterByStops, if_pos hc]
      exact hl
    · simp only [filterByStops, if_neg hc]
      exact hl.filter _

/-- Price-stage monotonicity. -/
theorem filterByPrice_sublist (r1 r2 : PriceRange) (g : ℚ × ℚ)
    (h : (¬ (r1.min > 0 ∨ r1.max ≠ none)) ∨ r2 = r1)
    {l1 l2 : List FlightOffer} (hl : l2.Sublist l1) :
    (filterByPrice r2 g l2).Sublist (filterByPrice r1 g l1) := by
  have hsub2 : (filterByPrice r2 g l2).Sublist l2 := by
    unfold filterByPrice
    split
    · exact List.filter_sublist _
    · exact List.Sublist.refl _
  rcases h with h | h
  · have h1 : filterByPrice r1 g l1 = l1 := by
      unfold filterByPrice
      rw [if_neg h]
    rw [h1]
    exact hsub2.trans hl
  · subst h
    by_cases hc : r2.min > 0 ∨ r2.max ≠ none
    · simp only [filterByPrice, if_pos hc]
      exact hl.filter _
    · simp only [filterByPrice, if_neg hc]
      exact hl

/-- Airline-stage monotonicity. -/
theorem filterByAirlines_sublist (a1 a2 : List String)
    (h : a1 = [] ∨ a2 = a1) {l1 l2 : List FlightOffer} (hl : l2.Sublist l1) :
    (filterByAirlines a2 l2).Sublist (filterByAirlines a1 l1) := by
  have hsub2 : (filterByAirlines a2 l2).Sublist l2 := by
    unfold filterByAirlines
    split
    · exact List.Sublist.refl _
    · exact List.filter_sublist _
  rcases h with h | h
  · subst h
    have h1 : filterByAirlines [] l1 = l1 := by simp [filterByAirlines]
    rw [h1]
    exact hsub2.trans hl
  · subst h
    by_cases hc : a2.isEmpty = true
    · simp only [filterByAirlines, if_pos hc]
      exact hl
    · simp only [filterByAirlines, if_neg hc]
      exact hl.filter _

/-- Duration-stage monotonicity. -/
theorem filterByDuration_sublist (d1 d2 : Option Nat)
    (h : d1 = none ∨ d2 = d1) {l1 l2 : List FlightOffer} (hl : l2.Sublist l1) :
    (filterByDuration d2 l2).Sublist (filterByDuration d1 l1) := by
  have hsub2 : (filterByDuration d2 l2).Sublist l2 := by
    unfold filterByDuration
    split
    · exact List.Sublist.refl _
    · exact List.filter_sublist _
  rcases h with h | h
  · rw [h]
    simp only [filterByDuration]
    exact hsub2.trans hl
  · subst h
    cases d2 with
    | none => exact hl
    | some ceiling =>
      simp only [filterByDuration]
      exact hl.filter _

/-- Sorting does not change the number of offers. -/
theorem sortFlights_length (o : SortOption) (l : List FlightOffer) :
    (sortFlights o l).length = l.length := by
  simp [sortFlights]

/-- C7. Filter monotonicity: whenever `F2` activates every predicate `F1`
activates, with the same parameters (`FilterRefines F1 F2`, i.e.
`F1 ⊆ F2` — `F2` may activate any further predicates), the derived
visible set under `F2` is no larger than the one under `F1`. -/
theorem filter_monotonicity (flights : List FlightOffer)
    (F1 F2 : FlightFilters) (o : SortOption) (h : FilterRefines F1 F2) :
    (filteredFlights flights F2 o).length ≤
      (filteredFlights flights F1 o).length := by
  obtain ⟨hs, hp, ha, hd⟩ := h
  have hchain :
      (filterByDuration F2.duration (filterByAirlines F2.airlines
        (filterByPrice F2.priceRange (globalPriceRange flights)
          (filterByStops F2.stops flights)))).Sublist
      (filterByDuration F1.duration (filterByAirlines F1.airlines
        (filterByPrice F1.priceRange (globalPriceRange flights)
          (filterByStops F1.stops flights)))) :=
    filterByDuration_sublist _ _ hd
      (filterByAirlines_sublist _ _ ha
        (filterByPrice_sublist _ _ _ hp
          (filterByStops_sublist _ _ hs (List.Sublist.refl _))))
  have hlen := hchain.length_le
  simpa [filteredFlights, sortFlights_length] using hlen

/-- Witness for C7: activating the non-stop predicate on top of the
default filters cannot grow the visible set. -/
theorem filter_monotonicity_witness :
    FilterRefines defaultFilters
      { stops := [StopFilter.nonStop], priceRange := { min := 0, max := none },
        airlines := [], duration := none } ∧
    (filteredFlights [offerA, offerB]
        { stops := [StopFilter.nonStop],
          priceRange := { min := 0, max := none },
          airlines := [], duration := none } SortOption.priceAsc).length ≤
      (filteredFlights [offerA, offerB] defaultFilters
        SortOption.priceAsc).length :=
  ⟨⟨Or.inl rfl, Or.inl (by decide), Or.inl rfl, Or.inl rfl⟩,
   filter_monotonicity [offerA, offerB] defaultFilters
     { stops := [StopFilter.nonStop], priceRange := { min := 0, max := none },
       airlines := [], duration := none } SortOption.priceAsc
     ⟨Or.inl rfl, Or.inl (by decide), Or.inl rfl, Or.inl rfl⟩⟩

end FlightApp
